import Mathlib

/-!
Shallow embedding of the reconciliation core of `src/reconcilation.py`.

The script builds two pandas DataFrames (payments and ledger), performs
`payments_df.merge(ledger_df, on=['PaymentID','Merchant'], how='outer')`
(line 67), adds four boolean flag columns (lines 70-77), and aggregates by
merchant (lines 82-92).

Modelling decisions, all taken from pandas semantics as exercised by the
source:
* A DataFrame cell may hold NaN, so every column is modelled as an `Option`:
  `none` is NaN/absent.  Amounts are rationals (the script rounds floats to
  two decimals; §9 of the design treats amounts as exact decimals), dates are
  integers (day ordinals); neither claim depends on their internal structure.
* `pd.merge(..., how='outer')` matches NaN join keys with each other, so key
  equality is plain equality on `Option String × Option String`.
* With duplicate keys the outer merge is many-to-many: a key occurring m
  times on the left and n times on the right yields m*n paired rows; an
  unmatched left (right) row yields one row with the right (left) columns
  NaN.
* `groupby('Merchant')` drops NaN group keys; `agg(..., 'sum')` skips NaN and
  returns 0 for an all-NaN column; `('PaymentID','count')` counts non-NaN
  values only; summing a boolean column counts its `True`s.
* Line 92 divides `NumDiscrepancies / NumTransactions` with no guard; in
  pandas a zero denominator yields a non-finite float (NaN or inf), which we
  model as `none` in an `Option ℚ`-valued `DiscrepancyPct`.
-/

/-- A row of `payments_df`: PaymentID, Merchant, PaymentDate, PaymentAmount
(columns of line 35).  Cells are `Option`s because a DataFrame cell can be
NaN; the script itself never validates them (there is no schema check in
`src/reconcilation.py`). -/
structure PaymentRecord where
  paymentID : Option String
  merchant : Option String
  paymentDate : Option Int
  paymentAmount : Option ℚ
deriving DecidableEq, Repr

/-- A row of `ledger_df`: PaymentID, Merchant, LedgerDate, LedgerAmount
(line 59).  `ledgerAmount = none` models the NaN entries the generator
introduces at line 56. -/
structure LedgerRecord where
  paymentID : Option String
  merchant : Option String
  ledgerDate : Option Int
  ledgerAmount : Option ℚ
deriving DecidableEq, Repr

/-- The composite join key `['PaymentID','Merchant']` of line 67. -/
def PaymentRecord.key (p : PaymentRecord) : Option String × Option String :=
  (p.paymentID, p.merchant)

/-- The composite join key `['PaymentID','Merchant']` of line 67. -/
def LedgerRecord.key (l : LedgerRecord) : Option String × Option String :=
  (l.paymentID, l.merchant)

/-- A row of `recon_df` right after the merge of line 67, before the flag
columns are added. -/
structure MergedRow where
  paymentID : Option String
  merchant : Option String
  paymentDate : Option Int
  paymentAmount : Option ℚ
  ledgerDate : Option Int
  ledgerAmount : Option ℚ
deriving DecidableEq, Repr

/-- Merge a matched pair of rows (key equal on both sides). -/
def mergeBoth (p : PaymentRecord) (l : LedgerRecord) : MergedRow :=
  ⟨p.paymentID, p.merchant, p.paymentDate, p.paymentAmount, l.ledgerDate, l.ledgerAmount⟩

/-- A payment row with no ledger match: ledger columns are NaN. -/
def mergeLeft (p : PaymentRecord) : MergedRow :=
  ⟨p.paymentID, p.merchant, p.paymentDate, p.paymentAmount, none, none⟩

/-- A ledger row with no payment match: payment columns are NaN. -/
def mergeRight (l : LedgerRecord) : MergedRow :=
  ⟨l.paymentID, l.merchant, none, none, l.ledgerDate, l.ledgerAmount⟩

/-- `payments_df.merge(ledger_df, on=['PaymentID','Merchant'], how='outer')`
(line 67).  Every payment row is paired with each ledger row of equal key
(many-to-many on duplicate keys), an unmatched payment row keeps NaN ledger
columns, and the unmatched ledger rows are appended. -/
def outerMerge (P : List PaymentRecord) (L : List LedgerRecord) : List MergedRow :=
  (P.flatMap fun p =>
    if (L.filter fun l => decide (l.key = p.key)) = [] then [mergeLeft p]
    else (L.filter fun l => decide (l.key = p.key)).map (mergeBoth p)) ++
  (L.filter fun l => decide (l.key ∉ P.map PaymentRecord.key)).map mergeRight

/-- A row of `recon_df` after lines 70-77: the merged columns plus the four
boolean flags. -/
structure ReconRow where
  paymentID : Option String
  merchant : Option String
  paymentDate : Option Int
  paymentAmount : Option ℚ
  ledgerDate : Option Int
  ledgerAmount : Option ℚ
  missingPayment : Bool
  missingLedger : Bool
  amountMismatch : Bool
  discrepancy : Bool
deriving DecidableEq, Repr

/-- Lines 70-77:
`MissingPayment = PaymentAmount.isna()`,
`MissingLedger = LedgerAmount.isna()`,
`AmountMismatch = ~MissingPayment & ~MissingLedger & (PaymentAmount != LedgerAmount)`,
`Discrepancy = any of the three`.
(With both amounts non-NaN, pandas `!=` on the amount columns is exact
inequality; the NaN cases are cut off by the two `~Missing` conjuncts.) -/
def flagRow (m : MergedRow) : ReconRow :=
  let mp := m.paymentAmount.isNone
  let ml := m.ledgerAmount.isNone
  let am := !mp && !ml && decide (m.paymentAmount ≠ m.ledgerAmount)
  ⟨m.paymentID, m.merchant, m.paymentDate, m.paymentAmount, m.ledgerDate, m.ledgerAmount,
   mp, ml, am, mp || ml || am⟩

/-- The reconciliation step, lines 67-77: outer merge then flag columns. -/
def reconcile (P : List PaymentRecord) (L : List LedgerRecord) : List ReconRow :=
  (outerMerge P L).map flagRow

/-- The number of distinct composite keys across both inputs,
|keys(P) ∪ keys(L)|. -/
def numDistinctKeys (P : List PaymentRecord) (L : List LedgerRecord) : ℕ :=
  ((P.map PaymentRecord.key).toFinset ∪ (L.map LedgerRecord.key).toFinset).card

/-- A row of `summary_df` (lines 82-92).  `discrepancyPct = none` models the
non-finite float pandas produces when the divisor `NumTransactions` is 0. -/
structure MerchantSummary where
  merchant : String
  totalPayments : ℚ
  totalLedger : ℚ
  numTransactions : ℕ
  numDiscrepancies : ℕ
  missingPayments : ℕ
  missingLedgerEntries : ℕ
  amountMismatches : ℕ
  discrepancyPct : Option ℚ
deriving DecidableEq, Repr

/-- The rows of merchant `m`'s group under `groupby('Merchant')` (line 82). -/
def groupRows (rows : List ReconRow) (m : String) : List ReconRow :=
  rows.filter fun r => decide (r.merchant = some m)

/-- One `summary_df` row (lines 82-92).  `sum` skips NaN (hence `filterMap`)
and is 0 on an all-NaN column; `('PaymentID','count')` counts non-NaN
PaymentIDs; summing a boolean column counts its `True`s; line 92 computes
`NumDiscrepancies / NumTransactions * 100` with no zero guard, which for a
zero divisor is a non-finite float, modelled as `none`. -/
def summarizeMerchant (rows : List ReconRow) (m : String) : MerchantSummary :=
  let g := groupRows rows m
  let n := (g.filter fun r => decide (r.paymentID ≠ none)).length
  let d := (g.filter fun r => r.discrepancy).length
  { merchant := m
  , totalPayments := (g.filterMap (fun r => r.paymentAmount)).sum
  , totalLedger := (g.filterMap (fun r => r.ledgerAmount)).sum
  , numTransactions := n
  , numDiscrepancies := d
  , missingPayments := (g.filter fun r => r.missingPayment).length
  , missingLedgerEntries := (g.filter fun r => r.missingLedger).length
  , amountMismatches := (g.filter fun r => r.amountMismatch).length
  , discrepancyPct := if n = 0 then none else some ((d : ℚ) / (n : ℚ) * 100) }

/-- Lines 82-92: one summary row per distinct non-NaN Merchant value
(`groupby` drops NaN group keys; the group set is the claims' concern, not
its order). -/
def summarize (rows : List ReconRow) : List MerchantSummary :=
  ((rows.filterMap fun r => r.merchant).dedup).map (summarizeMerchant rows)

/-! ### Sample records used by counterexamples and witnesses -/

/-- A well-formed payment record with key (P1, M001). -/
def pA : PaymentRecord := ⟨some "P1", some "M001", some 0, some 100⟩

/-- A second payment record with the same key (P1, M001) as `pA`: a
duplicate composite key within the payments side. -/
def pA2 : PaymentRecord := ⟨some "P1", some "M001", some 1, some 200⟩

/-- A well-formed payment record with key (P2, M002). -/
def pB : PaymentRecord := ⟨some "P2", some "M002", some 0, some 50⟩

/-- A ledger record matching `pA`'s key and amount. -/
def lA : LedgerRecord := ⟨some "P1", some "M001", some 0, some 100⟩

/-- A ledger record with key (P1, M001) but an absent (NaN) LedgerAmount,
as the generator produces at line 56. -/
def lNaN : LedgerRecord := ⟨some "P1", some "M001", some 0, none⟩

/-- A malformed payment record: the required key field PaymentID is
missing. -/
def pBad : PaymentRecord := ⟨none, some "M001", some 0, some 100⟩

/-- The reconciled row produced for the matched pair `pA`/`lA`. -/
def rowAA : ReconRow :=
  ⟨some "P1", some "M001", some 0, some 100, some 0, some 100, false, false, false, false⟩

/-! ### Helper lemmas about the outer merge -/

theorem mem_filter_key {L : List LedgerRecord} {k : Option String × Option String}
    {l : LedgerRecord} :
    l ∈ (L.filter fun l => decide (l.key = k)) ↔ l ∈ L ∧ l.key = k := by
  simp [List.mem_filter]

theorem filter_key_eq_nil {L : List LedgerRecord} {k : Option String × Option String} :
    (L.filter fun l => decide (l.key = k)) = [] ↔ ∀ l ∈ L, l.key ≠ k := by
  simp [List.filter_eq_nil_iff]

/-- Membership characterisation of the outer merge: a merged row is either a
matched pair, an unmatched payment row, or an unmatched ledger row. -/
theorem mem_outerMerge {P : List PaymentRecord} {L : List LedgerRecord} {m : MergedRow} :
    m ∈ outerMerge P L ↔
      (∃ p ∈ P, ∃ l ∈ L, l.key = p.key ∧ m = mergeBoth p l) ∨
      (∃ p ∈ P, (∀ l ∈ L, l.key ≠ p.key) ∧ m = mergeLeft p) ∨
      (∃ l ∈ L, l.key ∉ P.map PaymentRecord.key ∧ m = mergeRight l) := by
  unfold outerMerge
  simp only [List.mem_append, List.mem_flatMap, List.mem_map, List.mem_filter,
    decide_eq_true_eq]
  constructor
  · rintro (⟨p, hp, hm⟩ | ⟨l, ⟨hl, hnot⟩, hm⟩)
    · by_cases h : (L.filter fun l => decide (l.key = p.key)) = []
      · rw [if_pos h] at hm
        simp only [List.mem_singleton] at hm
        exact Or.inr (Or.inl ⟨p, hp, filter_key_eq_nil.mp h, hm⟩)
      · rw [if_neg h] at hm
        obtain ⟨l, hl, hm⟩ := List.mem_map.mp hm
        obtain ⟨hlL, hk⟩ := mem_filter_key.mp hl
        exact Or.inl ⟨p, hp, l, hlL, hk, hm.symm⟩
    · exact Or.inr (Or.inr ⟨l, hl, hnot, hm.symm⟩)
  · rintro (⟨p, hp, l, hl, hk, hm⟩ | ⟨p, hp, hall, hm⟩ | ⟨l, hl, hnot, hm⟩)
    · left
      refine ⟨p, hp, ?_⟩
      have hne : (L.filter fun l => decide (l.key = p.key)) ≠ [] := fun hc =>
        (filter_key_eq_nil.mp hc) l hl hk
      rw [if_neg hne]
      exact List.mem_map.mpr ⟨l, mem_filter_key.mpr ⟨hl, hk⟩, hm.symm⟩
    · left
      refine ⟨p, hp, ?_⟩
      rw [if_pos (filter_key_eq_nil.mpr hall)]
      simp [hm]
    · exact Or.inr ⟨l, ⟨hl, hnot⟩, hm.symm⟩

theorem mem_reconcile {P : List PaymentRecord} {L : List LedgerRecord} {r : ReconRow} :
    r ∈ reconcile P L ↔ ∃ m ∈ outerMerge P L, r = flagRow m := by
  simp only [reconcile, List.mem_map]
  constructor
  · rintro ⟨m, hm, rfl⟩; exact ⟨m, hm, rfl⟩
  · rintro ⟨m, hm, rfl⟩; exact ⟨m, hm, rfl⟩

/-! ### Length of the outer merge under per-side key uniqueness -/

theorem filter_key_length_le_one {L : List LedgerRecord}
    (hL : (L.map LedgerRecord.key).Nodup) (k : Option String × Option String) :
    (L.filter fun l => decide (l.key = k)).length ≤ 1 := by
  induction L with
  | nil => simp
  | cons a L ih =>
    simp only [List.map_cons, List.nodup_cons] at hL
    rw [List.filter_cons]
    by_cases h : a.key = k
    · rw [if_pos (by simp [h])]
      have hnil : (L.filter fun l => decide (l.key = k)) = [] := by
        rw [filter_key_eq_nil]
        intro l hl hk
        exact hL.1 (List.mem_map.mpr ⟨l, hl, by rw [hk, h]⟩)
      simp [hnil]
    · rw [if_neg (by simp [h])]
      exact ih hL.2

theorem length_outerMerge_left {L : List LedgerRecord}
    (hL : (L.map LedgerRecord.key).Nodup) (P : List PaymentRecord) :
    (P.flatMap fun p =>
      if (L.filter fun l => decide (l.key = p.key)) = [] then [mergeLeft p]
      else (L.filter fun l => decide (l.key = p.key)).map (mergeBoth p)).length
      = P.length := by
  induction P with
  | nil => rfl
  | cons p P ih =>
    rw [List.flatMap_cons, List.length_append, ih]
    have h1 : (if (L.filter fun l => decide (l.key = p.key)) = [] then [mergeLeft p]
        else (L.filter fun l => decide (l.key = p.key)).map (mergeBoth p)).length = 1 := by
      by_cases h : (L.filter fun l => decide (l.key = p.key)) = []
      · rw [if_pos h]; rfl
      · rw [if_neg h, List.length_map]
        have h2 : 0 < (L.filter fun l => decide (l.key = p.key)).length :=
          List.length_pos.mpr h
        have h3 := filter_key_length_le_one hL p.key
        omega
    rw [h1, List.length_cons]
    omega

theorem rightPart_map_key_toFinset (P : List PaymentRecord) (L : List LedgerRecord) :
    ((L.filter fun l => decide (l.key ∉ P.map PaymentRecord.key)).map
        LedgerRecord.key).toFinset
      = (L.map LedgerRecord.key).toFinset \ (P.map PaymentRecord.key).toFinset := by
  ext k
  simp only [List.mem_toFinset, List.mem_map, List.mem_filter, decide_eq_true_eq,
    Finset.mem_sdiff]
  constructor
  · rintro ⟨l, ⟨hl, hnot⟩, rfl⟩
    exact ⟨⟨l, hl, rfl⟩, hnot⟩
  · rintro ⟨⟨l, hl, rfl⟩, hnot⟩
    exact ⟨l, ⟨hl, hnot⟩, rfl⟩

theorem length_outerMerge_right {P : List PaymentRecord} {L : List LedgerRecord}
    (hL : (L.map LedgerRecord.key).Nodup) :
    ((L.filter fun l => decide (l.key ∉ P.map PaymentRecord.key)).map mergeRight).length
      = ((L.map LedgerRecord.key).toFinset \ (P.map PaymentRecord.key).toFinset).card := by
  have hsub : ((L.filter fun l => decide (l.key ∉ P.map PaymentRecord.key)).map
      LedgerRecord.key).Sublist (L.map LedgerRecord.key) :=
    (List.filter_sublist L).map LedgerRecord.key
  have hnd := hL.sublist hsub
  rw [List.length_map, ← rightPart_map_key_toFinset P L,
    List.toFinset_card_of_nodup hnd, List.length_map]

/-- C1 (amended with per-side key uniqueness): when the composite key
(PaymentID, Merchant) is unique within each input side, the reconciliation
output has exactly one row per distinct key present in either input. -/
theorem reconcile_length_eq_numDistinctKeys (P : List PaymentRecord) (L : List LedgerRecord)
    (hP : (P.map PaymentRecord.key).Nodup) (hL : (L.map LedgerRecord.key).Nodup) :
    (reconcile P L).length = numDistinctKeys P L := by
  unfold reconcile numDistinctKeys
  rw [List.length_map]
  unfold outerMerge
  rw [List.length_append, length_outerMerge_left hL P, length_outerMerge_right hL]
  have h1 : (P.map PaymentRecord.key).toFinset.card = P.length := by
    rw [List.toFinset_card_of_nodup hP, List.length_map]
  have h2 : ((L.map LedgerRecord.key).toFinset \ (P.map PaymentRecord.key).toFinset).card
      + (P.map PaymentRecord.key).toFinset.card
      = ((L.map LedgerRecord.key).toFinset ∪ (P.map PaymentRecord.key).toFinset).card :=
    Finset.card_sdiff_add_card _ _
  rw [Finset.union_comm] at h2
  omega

/-- C1 counterexample: with a duplicate key inside the payments side
(`pA` and `pA2` share key (P1, M001)) the pandas outer merge is
many-to-many, so the output has 2 rows while there is only 1 distinct key
across both inputs: the claimed equality fails. -/
theorem reconcile_length_ne_numDistinctKeys_dup_key :
    (reconcile [pA, pA2] [lA]).length ≠ numDistinctKeys [pA, pA2] [lA] := by
  decide

/-- C1 witness: the amended theorem applied to a concrete duplicate-free
input. -/
theorem reconcile_length_eq_numDistinctKeys_witness :
    ([pA, pB].map PaymentRecord.key).Nodup ∧ ([lA].map LedgerRecord.key).Nodup ∧
      (reconcile [pA, pB] [lA]).length = numDistinctKeys [pA, pB] [lA] :=
  ⟨by decide, by decide,
    reconcile_length_eq_numDistinctKeys [pA, pB] [lA] (by decide) (by decide)⟩

/-! ### C2: the Missing flags versus key membership -/

/-- C2 (amended): the flags of lines 70 and 72 test amount NaN-ness, so the
claimed equivalence with key membership holds exactly when every input record
on the corresponding side carries a present amount.  Under those hypotheses:
MissingPayment ⟺ key ∉ keys(P) and MissingLedger ⟺ key ∉ keys(L), for every
output row. -/
theorem missingFlags_iff_key_absent (P : List PaymentRecord) (L : List LedgerRecord)
    (hP : ∀ p ∈ P, p.paymentAmount ≠ none) (hL : ∀ l ∈ L, l.ledgerAmount ≠ none)
    (r : ReconRow) (hr : r ∈ reconcile P L) :
    (r.missingPayment = true ↔ (r.paymentID, r.merchant) ∉ P.map PaymentRecord.key) ∧
    (r.missingLedger = true ↔ (r.paymentID, r.merchant) ∉ L.map LedgerRecord.key) := by
  obtain ⟨m, hm, rfl⟩ := mem_reconcile.mp hr
  rcases mem_outerMerge.mp hm with ⟨p, hp, l, hl, hk, rfl⟩ | ⟨p, hp, hall, rfl⟩ |
    ⟨l, hl, hnot, rfl⟩
  · have hpa := hP p hp
    have hla := hL l hl
    have hkeyP : (p.paymentID, p.merchant) ∈ P.map PaymentRecord.key :=
      List.mem_map.mpr ⟨p, hp, rfl⟩
    have hkeyL : (p.paymentID, p.merchant) ∈ L.map LedgerRecord.key :=
      List.mem_map.mpr ⟨l, hl, hk⟩
    refine ⟨iff_of_false ?_ (not_not_intro hkeyP), iff_of_false ?_ (not_not_intro hkeyL)⟩
    · simp [flagRow, mergeBoth, Option.isNone_iff_eq_none, hpa]
    · simp [flagRow, mergeBoth, Option.isNone_iff_eq_none, hla]
  · have hpa := hP p hp
    have hkeyP : (p.paymentID, p.merchant) ∈ P.map PaymentRecord.key :=
      List.mem_map.mpr ⟨p, hp, rfl⟩
    refine ⟨iff_of_false ?_ (not_not_intro hkeyP), iff_of_true rfl ?_⟩
    · simp [flagRow, mergeLeft, Option.isNone_iff_eq_none, hpa]
    · intro hmem
      obtain ⟨l, hl, hkl⟩ := List.mem_map.mp hmem
      exact hall l hl hkl
  · have hla := hL l hl
    have hkeyL : (l.paymentID, l.merchant) ∈ L.map LedgerRecord.key :=
      List.mem_map.mpr ⟨l, hl, rfl⟩
    refine ⟨iff_of_true rfl ?_, iff_of_false ?_ (not_not_intro hkeyL)⟩
    · exact hnot
    · simp [flagRow, mergeRight, Option.isNone_iff_eq_none, hla]

/-- C2 counterexample: the ledger input `[lNaN]` contains the key
(P1, M001), yet its NaN LedgerAmount (as the generator produces at line 56)
makes line 72 set MissingLedger on that key's output row, refuting
"MissingLedger ⟺ key ∉ keys(L)" as stated. -/
theorem missingLedger_true_despite_key_present :
    ¬ (∀ r ∈ reconcile [] [lNaN],
        (r.missingLedger = true ↔ (r.paymentID, r.merchant) ∉ [lNaN].map LedgerRecord.key)) := by
  decide

/-- C2 witness: the amended theorem applied to the concrete matched input
`[pA]`, `[lA]`, at its single output row `rowAA`. -/
theorem missingFlags_iff_key_absent_witness :
    (rowAA.missingPayment = true ↔
      (rowAA.paymentID, rowAA.merchant) ∉ [pA].map PaymentRecord.key) ∧
    (rowAA.missingLedger = true ↔
      (rowAA.paymentID, rowAA.merchant) ∉ [lA].map LedgerRecord.key) :=
  missingFlags_iff_key_absent [pA] [lA] (by decide) (by decide) rowAA (by decide)

/-! ### C3 and C6: the AmountMismatch and Discrepancy flags -/

/-- C3 (confirmed): line 74-75 sets AmountMismatch exactly when both amounts
are present (non-NaN) and unequal under exact comparison, and the two
`~Missing` conjuncts force it false whenever either Missing flag holds. -/
theorem amountMismatch_iff_present_and_unequal (P : List PaymentRecord)
    (L : List LedgerRecord) (r : ReconRow) (hr : r ∈ reconcile P L) :
    (r.amountMismatch = true ↔
      r.paymentAmount ≠ none ∧ r.ledgerAmount ≠ none ∧
        r.paymentAmount ≠ r.ledgerAmount) ∧
    ((r.missingPayment = true ∨ r.missingLedger = true) → r.amountMismatch = false) := by
  obtain ⟨m, hm, rfl⟩ := mem_reconcile.mp hr
  constructor
  · simp [flagRow, Option.isNone_iff_eq_none, Option.isSome_iff_ne_none, and_assoc]
  · intro h
    rcases h with h | h <;>
      · simp only [flagRow, Option.isNone_iff_eq_none] at h ⊢
        simp [h]

/-- C6 (confirmed): line 77 computes Discrepancy as the disjunction of the
three specific flags, for every output row. -/
theorem discrepancy_iff_any_flag (P : List PaymentRecord) (L : List LedgerRecord)
    (r : ReconRow) (hr : r ∈ reconcile P L) :
    r.discrepancy = true ↔
      (r.missingPayment = true ∨ r.missingLedger = true ∨ r.amountMismatch = true) := by
  obtain ⟨m, hm, rfl⟩ := mem_reconcile.mp hr
  simp [flagRow, Bool.or_eq_true, or_assoc]

/-- C3 witness: the theorem applied at the matched row `rowAA` of
`reconcile [pA] [lA]`. -/
theorem amountMismatch_iff_present_and_unequal_witness :
    (rowAA.amountMismatch = true ↔
      rowAA.paymentAmount ≠ none ∧ rowAA.ledgerAmount ≠ none ∧
        rowAA.paymentAmount ≠ rowAA.ledgerAmount) ∧
    ((rowAA.missingPayment = true ∨ rowAA.missingLedger = true) →
      rowAA.amountMismatch = false) :=
  amountMismatch_iff_present_and_unequal [pA] [lA] rowAA (by decide)

/-- C6 witness: the theorem applied at the matched row `rowAA` of
`reconcile [pA] [lA]`. -/
theorem discrepancy_iff_any_flag_witness :
    rowAA.discrepancy = true ↔
      (rowAA.missingPayment = true ∨ rowAA.missingLedger = true ∨
        rowAA.amountMismatch = true) :=
  discrepancy_iff_any_flag [pA] [lA] rowAA (by decide)

/-! ### C4: no schema validation -/

/-- C4 counterexample: `pBad` is missing the required key field PaymentID,
yet lines 67-77 contain no validation: the record is processed without any
error and yields an ordinary output row (its NaN key carried through, its
absent ledger side flagged), refuting "rejected with a SchemaError, failing
fast with no partial output". -/
theorem reconcile_accepts_malformed_record :
    reconcile [pBad] [] =
      [⟨none, some "M001", some 0, some 100, none, none, false, true, false, true⟩] := by
  decide

/-- C4 (amended): the code performs no schema validation: every payment
record, malformed or not, contributes an output row that preserves its key
fields and its amount unchanged (no rejection, no coercion); absent amounts
merely set the Missing flags. -/
theorem reconcile_no_rejection (P : List PaymentRecord) (L : List LedgerRecord)
    (p : PaymentRecord) (hp : p ∈ P) :
    ∃ r ∈ reconcile P L, r.paymentID = p.paymentID ∧ r.merchant = p.merchant ∧
      r.paymentAmount = p.paymentAmount := by
  by_cases h : (L.filter fun l => decide (l.key = p.key)) = []
  · exact ⟨flagRow (mergeLeft p),
      mem_reconcile.mpr ⟨mergeLeft p,
        mem_outerMerge.mpr (Or.inr (Or.inl ⟨p, hp, filter_key_eq_nil.mp h, rfl⟩)), rfl⟩,
      rfl, rfl, rfl⟩
  · obtain ⟨l, hl⟩ := List.exists_mem_of_ne_nil _ h
    obtain ⟨hlL, hk⟩ := mem_filter_key.mp hl
    exact ⟨flagRow (mergeBoth p l),
      mem_reconcile.mpr ⟨mergeBoth p l,
        mem_outerMerge.mpr (Or.inl ⟨p, hp, l, hlL, hk, rfl⟩), rfl⟩,
      rfl, rfl, rfl⟩

/-- C4 witness: the amended theorem applied to the malformed record `pBad`
itself. -/
theorem reconcile_no_rejection_witness :
    ∃ r ∈ reconcile [pBad] [], r.paymentID = pBad.paymentID ∧
      r.merchant = pBad.merchant ∧ r.paymentAmount = pBad.paymentAmount :=
  reconcile_no_rejection [pBad] [] pBad (by decide)

/-! ### C5: the DiscrepancyPct division -/

/-- C5 counterexample: NumTransactions counts non-NaN PaymentIDs, so the
unvalidated record `pBad` (NaN PaymentID) produces a merchant group with one
row but NumTransactions = 0, and the unguarded division of line 92 yields a
non-finite value (`none`): the zero case is reachable and not handled. -/
theorem discrepancyPct_undefined_at_zero_transactions :
    (summarize (reconcile [pBad] [])).map
      (fun s => (s.numTransactions, s.discrepancyPct)) = [(0, none)] := by
  decide

theorem summarizeMerchant_discrepancyPct_eq (rows : List ReconRow) (m : String) :
    (summarizeMerchant rows m).discrepancyPct =
      if (summarizeMerchant rows m).numTransactions = 0 then none
      else some (((summarizeMerchant rows m).numDiscrepancies : ℚ) /
        ((summarizeMerchant rows m).numTransactions : ℚ) * 100) := rfl

/-- C5 (amended): line 92 computes DiscrepancyPct by an unguarded division:
when NumTransactions = 0 the result is the non-finite float (`none`), and
otherwise it is NumDiscrepancies / NumTransactions × 100; no explicit guard
exists. -/
theorem discrepancyPct_unguarded (rows : List ReconRow) (s : MerchantSummary)
    (hs : s ∈ summarize rows) :
    (s.numTransactions = 0 → s.discrepancyPct = none) ∧
    (s.numTransactions ≠ 0 →
      s.discrepancyPct =
        some ((s.numDiscrepancies : ℚ) / (s.numTransactions : ℚ) * 100)) := by
  obtain ⟨m, hm, rfl⟩ := List.mem_map.mp hs
  rw [summarizeMerchant_discrepancyPct_eq]
  constructor
  · intro h
    rw [if_pos h]
  · intro h
    rw [if_neg h]

/-- C5 witness: the amended theorem applied to the summary produced by the
`pBad` pipeline, whose group has NumTransactions = 0. -/
theorem discrepancyPct_unguarded_witness :
    (summarizeMerchant (reconcile [pBad] []) "M001").discrepancyPct = none :=
  (discrepancyPct_unguarded (reconcile [pBad] [])
    (summarizeMerchant (reconcile [pBad] []) "M001")
    (List.mem_map.mpr ⟨"M001", by decide, rfl⟩)).1 (by decide)

/-! ### C8: order-independence of the reconciliation -/

theorem mem_outerMerge_of_perm {P P' : List PaymentRecord} {L L' : List LedgerRecord}
    (hP : P.Perm P') (hL : L.Perm L') {m : MergedRow} (hm : m ∈ outerMerge P L) :
    m ∈ outerMerge P' L' := by
  rw [mem_outerMerge] at hm ⊢
  rcases hm with ⟨p, hp, l, hl, hk, rfl⟩ | ⟨p, hp, hall, rfl⟩ | ⟨l, hl, hnot, rfl⟩
  · exact Or.inl ⟨p, hP.mem_iff.mp hp, l, hL.mem_iff.mp hl, hk, rfl⟩
  · exact Or.inr (Or.inl ⟨p, hP.mem_iff.mp hp,
      fun l hl => hall l (hL.mem_iff.mpr hl), rfl⟩)
  · exact Or.inr (Or.inr ⟨l, hL.mem_iff.mp hl,
      fun hc => hnot ((hP.map PaymentRecord.key).mem_iff.mpr hc), rfl⟩)

/-- C8 (confirmed): for any permutations P' of P and L' of L, the
reconciliation outputs are set-equal: every row of one is a row of the
other. -/
theorem reconcile_order_independent (P P' : List PaymentRecord) (L L' : List LedgerRecord)
    (hP : P.Perm P') (hL : L.Perm L') (r : ReconRow) :
    r ∈ reconcile P L ↔ r ∈ reconcile P' L' := by
  constructor
  · intro hr
    obtain ⟨m, hm, rfl⟩ := mem_reconcile.mp hr
    exact mem_reconcile.mpr ⟨m, mem_outerMerge_of_perm hP hL hm, rfl⟩
  · intro hr
    obtain ⟨m, hm, rfl⟩ := mem_reconcile.mp hr
    exact mem_reconcile.mpr ⟨m, mem_outerMerge_of_perm hP.symm hL.symm hm, rfl⟩

/-- C8 witness: the theorem applied to the concrete swap of `[pA, pB]`, at
the row `rowAA`. -/
theorem reconcile_order_independent_witness :
    rowAA ∈ reconcile [pA, pB] [lA] ↔ rowAA ∈ reconcile [pB, pA] [lA] :=
  reconcile_order_independent [pA, pB] [pB, pA] [lA] [lA] (by decide) (by decide) rowAA

/-! ### C10: sums over all-absent groups -/

/-- C10 (confirmed): pandas `sum` over an all-NaN column of a group is the
number 0, never NaN: if every row of merchant m has an absent LedgerAmount
(resp. PaymentAmount), the summary reports TotalLedger = 0
(resp. TotalPayments = 0). -/
theorem totals_zero_of_all_absent (rows : List ReconRow) (s : MerchantSummary)
    (hs : s ∈ summarize rows) :
    ((∀ r ∈ rows, r.merchant = some s.merchant → r.ledgerAmount = none) →
      s.totalLedger = 0) ∧
    ((∀ r ∈ rows, r.merchant = some s.merchant → r.paymentAmount = none) →
      s.totalPayments = 0) := by
  obtain ⟨m, hm, rfl⟩ := List.mem_map.mp hs
  constructor
  · intro h
    have hnil : (groupRows rows m).filterMap (fun r => r.ledgerAmount) = [] := by
      rw [List.filterMap_eq_nil_iff]
      intro r hr
      obtain ⟨hrows, hm'⟩ := List.mem_filter.mp hr
      exact h r hrows (of_decide_eq_true hm')
    show ((groupRows rows m).filterMap (fun r => r.ledgerAmount)).sum = 0
    rw [hnil]
    rfl
  · intro h
    have hnil : (groupRows rows m).filterMap (fun r => r.paymentAmount) = [] := by
      rw [List.filterMap_eq_nil_iff]
      intro r hr
      obtain ⟨hrows, hm'⟩ := List.mem_filter.mp hr
      exact h r hrows (of_decide_eq_true hm')
    show ((groupRows rows m).filterMap (fun r => r.paymentAmount)).sum = 0
    rw [hnil]
    rfl

/-- C10 witness: the theorem applied to the `pBad` pipeline, whose single
M001 row has an absent LedgerAmount. -/
theorem totals_zero_of_all_absent_witness :
    (summarizeMerchant (reconcile [pBad] []) "M001").totalLedger = 0 :=
  (totals_zero_of_all_absent (reconcile [pBad] [])
    (summarizeMerchant (reconcile [pBad] []) "M001")
    (List.mem_map.mpr ⟨"M001", by decide, rfl⟩)).1 (by decide)

/-! ### C7 and C9: aggregation consistency and summary invariants -/

theorem reconcile_paymentID_ne_none {P : List PaymentRecord} {L : List LedgerRecord}
    (hP : ∀ p ∈ P, p.paymentID ≠ none) (hL : ∀ l ∈ L, l.paymentID ≠ none)
    {r : ReconRow} (hr : r ∈ reconcile P L) : r.paymentID ≠ none := by
  obtain ⟨m, hm, rfl⟩ := mem_reconcile.mp hr
  rcases mem_outerMerge.mp hm with ⟨p, hp, l, hl, hk, rfl⟩ | ⟨p, hp, hall, rfl⟩ |
    ⟨l, hl, hnot, rfl⟩
  · exact hP p hp
  · exact hP p hp
  · exact hL l hl

theorem numTransactions_eq_group_length {P : List PaymentRecord} {L : List LedgerRecord}
    (hP : ∀ p ∈ P, p.paymentID ≠ none) (hL : ∀ l ∈ L, l.paymentID ≠ none) (m : String) :
    (summarizeMerchant (reconcile P L) m).numTransactions
      = (groupRows (reconcile P L) m).length := by
  show ((groupRows (reconcile P L) m).filter
      fun r => decide (r.paymentID ≠ none)).length = _
  congr 1
  rw [List.filter_eq_self]
  intro r hr
  exact decide_eq_true (reconcile_paymentID_ne_none hP hL (List.mem_filter.mp hr).1)

theorem groupRows_ne_nil {rows : List ReconRow} {m : String}
    (hm : m ∈ (rows.filterMap fun r => r.merchant).dedup) : groupRows rows m ≠ [] := by
  obtain ⟨r, hr, hmr⟩ := List.mem_filterMap.mp (List.mem_dedup.mp hm)
  exact List.ne_nil_of_mem (List.mem_filter.mpr ⟨hr, decide_eq_true hmr⟩)

/-- C7 (confirmed, over inputs conforming to the data model's required
PaymentID): each summary row's TotalPayments and TotalLedger are the sums of
the present amounts over its merchant's reconciled rows (absent amounts
excluded, not zeroed), and NumTransactions is the number of that merchant's
reconciled rows.  (The count aggregates non-NaN PaymentIDs, so the last
equality needs every input record to carry a PaymentID.) -/
theorem aggregation_consistency (P : List PaymentRecord) (L : List LedgerRecord)
    (hP : ∀ p ∈ P, p.paymentID ≠ none) (hL : ∀ l ∈ L, l.paymentID ≠ none)
    (s : MerchantSummary) (hs : s ∈ summarize (reconcile P L)) :
    s.totalPayments = ((groupRows (reconcile P L) s.merchant).filterMap
        (fun r => r.paymentAmount)).sum ∧
    s.totalLedger = ((groupRows (reconcile P L) s.merchant).filterMap
        (fun r => r.ledgerAmount)).sum ∧
    s.numTransactions = (groupRows (reconcile P L) s.merchant).length := by
  obtain ⟨m, hm, rfl⟩ := List.mem_map.mp hs
  exact ⟨rfl, rfl, numTransactions_eq_group_length hP hL m⟩

/-- C7 witness: the theorem applied to the concrete input `[pA]`, `[lA]`. -/
theorem aggregation_consistency_witness :
    (summarizeMerchant (reconcile [pA] [lA]) "M001").totalPayments
        = ((groupRows (reconcile [pA] [lA])
            (summarizeMerchant (reconcile [pA] [lA]) "M001").merchant).filterMap
            (fun r => r.paymentAmount)).sum ∧
    (summarizeMerchant (reconcile [pA] [lA]) "M001").totalLedger
        = ((groupRows (reconcile [pA] [lA])
            (summarizeMerchant (reconcile [pA] [lA]) "M001").merchant).filterMap
            (fun r => r.ledgerAmount)).sum ∧
    (summarizeMerchant (reconcile [pA] [lA]) "M001").numTransactions
        = (groupRows (reconcile [pA] [lA])
            (summarizeMerchant (reconcile [pA] [lA]) "M001").merchant).length :=
  aggregation_consistency [pA] [lA] (by decide) (by decide)
    (summarizeMerchant (reconcile [pA] [lA]) "M001")
    (List.mem_map.mpr ⟨"M001", by decide, rfl⟩)

/-- C9 (confirmed, over inputs conforming to the data model's required
PaymentID): every summary row has NumDiscrepancies ≤ NumTransactions and a
defined DiscrepancyPct lying in [0, 100]. -/
theorem summary_invariants (P : List PaymentRecord) (L : List LedgerRecord)
    (hP : ∀ p ∈ P, p.paymentID ≠ none) (hL : ∀ l ∈ L, l.paymentID ≠ none)
    (s : MerchantSummary) (hs : s ∈ summarize (reconcile P L)) :
    s.numDiscrepancies ≤ s.numTransactions ∧
    ∃ q, s.discrepancyPct = some q ∧ 0 ≤ q ∧ q ≤ 100 := by
  obtain ⟨m, hm, rfl⟩ := List.mem_map.mp hs
  have hNT := numTransactions_eq_group_length hP hL m
  have hND : (summarizeMerchant (reconcile P L) m).numDiscrepancies
      ≤ (groupRows (reconcile P L) m).length := List.length_filter_le _ _
  have hpos : 0 < (groupRows (reconcile P L) m).length :=
    List.length_pos.mpr (groupRows_ne_nil hm)
  have hn0 : (summarizeMerchant (reconcile P L) m).numTransactions ≠ 0 := by omega
  refine ⟨by omega, ?_⟩
  rw [summarizeMerchant_discrepancyPct_eq, if_neg hn0]
  refine ⟨_, rfl, ?_, ?_⟩
  · positivity
  · have h1 : ((summarizeMerchant (reconcile P L) m).numDiscrepancies : ℚ)
        ≤ ((summarizeMerchant (reconcile P L) m).numTransactions : ℚ) := by
      exact_mod_cast (by omega :
        (summarizeMerchant (reconcile P L) m).numDiscrepancies
          ≤ (summarizeMerchant (reconcile P L) m).numTransactions)
    have h2 : (0 : ℚ) < ((summarizeMerchant (reconcile P L) m).numTransactions : ℚ) := by
      exact_mod_cast (by omega :
        0 < (summarizeMerchant (reconcile P L) m).numTransactions)
    have h3 : ((summarizeMerchant (reconcile P L) m).numDiscrepancies : ℚ)
        / ((summarizeMerchant (reconcile P L) m).numTransactions : ℚ) ≤ 1 :=
      (div_le_one h2).mpr h1
    calc ((summarizeMerchant (reconcile P L) m).numDiscrepancies : ℚ)
          / ((summarizeMerchant (reconcile P L) m).numTransactions : ℚ) * 100
        ≤ 1 * 100 := by
          exact mul_le_mul_of_nonneg_right h3 (by norm_num)
      _ = 100 := one_mul 100

/-- C9 witness: the theorem applied to the concrete input `[pA]`, `[lA]`. -/
theorem summary_invariants_witness :
    (summarizeMerchant (reconcile [pA] [lA]) "M001").numDiscrepancies
        ≤ (summarizeMerchant (reconcile [pA] [lA]) "M001").numTransactions ∧
    ∃ q, (summarizeMerchant (reconcile [pA] [lA]) "M001").discrepancyPct = some q ∧
      0 ≤ q ∧ q ≤ 100 :=
  summary_invariants [pA] [lA] (by decide) (by decide)
    (summarizeMerchant (reconcile [pA] [lA]) "M001")
    (List.mem_map.mpr ⟨"M001", by decide, rfl⟩)
